import Mathlib

/-!
Verification of the data-join-and-aggregation layer of `src/dashboard/app.py`
(a read-only analytics dashboard over precomputed topic-mapping tables).

Tables are embedded as lists of records; polars joins, filters, group-bys and
sorts are embedded as the corresponding list operations; float columns are
embedded as exact rationals; an operation that raises a Python exception is
embedded as an `Option` returning `none`.
-/

/-- One row of the `docs.parquet` table (app.py line 87). -/
structure DocRow where
  doc_id : String
  ano : Int
  titulo : String
  orientador_nome : String
  orientador_id : String
  url : String
deriving DecidableEq

/-- One row of the topics table after the casts of app.py lines 88-92. -/
structure TopicRow where
  topic : Int
  label : String
  keywords : String
deriving DecidableEq

/-- One row of `doc_topics.parquet` (app.py line 93). -/
structure DocTopicRow where
  doc_id : String
  topic : Int
  prob : ℚ
deriving DecidableEq

/-- One row of `topic_trends.parquet` (app.py line 94). -/
structure TrendRow where
  topic : Int
  ano : Int
  share : ℚ
  n_docs : Int
deriving DecidableEq

/-- One row of `advisor_profiles.parquet` (app.py line 95). -/
structure AdvisorProfileRow where
  orientador_id : String
  orientador_nome : String
  n_tccs : Int
  anos_atuacao : Int
  temas_top : String
deriving DecidableEq

/-- One row of `advisor_topics.parquet` (app.py line 96). -/
structure AdvisorTopicRow where
  orientador_id : String
  topic : Int
  n_docs : Int
  share_no_orientador : ℚ
deriving DecidableEq

/-- One row of the derived `doc_with_topic` view (app.py lines 98-101):
all columns of `doc_topics` and `docs`, plus the topic `label`, which is
`none` when the left join against `topics` found no matching row (null). -/
structure DWTRow where
  doc_id : String
  topic : Int
  prob : ℚ
  ano : Int
  titulo : String
  orientador_nome : String
  orientador_id : String
  url : String
  label : Option String
deriving DecidableEq

/-- Inner join `doc_topics.join(docs, on="DOC_ID", how="inner")`
(app.py line 99): each left row paired with every matching right row. -/
def joinInner (dts : List DocTopicRow) (docs : List DocRow) :
    List (DocTopicRow × DocRow) :=
  dts.flatMap fun dt =>
    (docs.filter fun d => d.doc_id = dt.doc_id).map fun d => (dt, d)

/-- Left join `.join(topics.select(["topic","label"]), on="topic", how="left")`
(app.py line 100): a left row with no matching topic is kept with null label. -/
def joinLeftTopics (rows : List (DocTopicRow × DocRow)) (topics : List TopicRow) :
    List DWTRow :=
  rows.flatMap fun r =>
    match topics.filter fun t => t.topic = r.1.topic with
    | [] => [⟨r.1.doc_id, r.1.topic, r.1.prob, r.2.ano, r.2.titulo,
             r.2.orientador_nome, r.2.orientador_id, r.2.url, none⟩]
    | ts => ts.map fun t =>
        ⟨r.1.doc_id, r.1.topic, r.1.prob, r.2.ano, r.2.titulo,
         r.2.orientador_nome, r.2.orientador_id, r.2.url, some t.label⟩

/-- The `doc_with_topic` view (app.py lines 98-101). -/
def doc_with_topic (docs : List DocRow) (dts : List DocTopicRow)
    (topics : List TopicRow) : List DWTRow :=
  joinLeftTopics (joinInner dts docs) topics

/-- Restatement of the spec's words (§3, DocumentWithTopic) for the refinement
claim: inner join DocumentTopic → Document by document id dropping unmatched
rows, then left join with Topic keeping an unmatched row with empty label. -/
def documentWithTopicSpec (docs : List DocRow) (dts : List DocTopicRow)
    (topics : List TopicRow) : List DWTRow :=
  dts.filterMap fun dt =>
    (docs.find? fun d => d.doc_id = dt.doc_id).map fun d =>
      ⟨dt.doc_id, dt.topic, dt.prob, d.ano, d.titulo, d.orientador_nome,
       d.orientador_id, d.url, (topics.find? fun t => t.topic = dt.topic).map (·.label)⟩

/-- The "Temas (sem -1)" metric of the overview page displays the full height
of the topics table (app.py line 116): `st.metric("Temas (sem -1)", f"{topics.height}")`. -/
def temas_metric (topics : List TopicRow) : Nat :=
  topics.length

/-- Outlier document count (app.py line 118):
`doc_topics.filter(pl.col("topic") == -1).height`. -/
def out_count (dts : List DocTopicRow) : Nat :=
  (dts.filter fun dt => dt.topic = -1).length

/-- The outliers metric of the overview page (app.py lines 118-119): the
count together with the ratio `out_count / docs.height`. The division is
evaluated at the call site, before `human_pct` is entered, so an empty docs
table raises ZeroDivisionError (embedded as `none`). -/
def overview_outliers (docs : List DocRow) (dts : List DocTopicRow) :
    Option (Nat × ℚ) :=
  if docs.length = 0 then none
  else some (out_count dts, (out_count dts : ℚ) / (docs.length : ℚ))

/-- Trend rows of the selected topic (app.py line 176):
`trends.filter(pl.col("topic") == sel_topic).sort("ano")`. -/
def t_trend (trends : List TrendRow) (sel : Int) : List TrendRow :=
  List.insertionSort (fun a b => a.ano ≤ b.ano)
    (trends.filter fun r => r.topic = sel)

/-- Output of the trend section of the topic-filter page: either a chart or
the informational notice. -/
inductive TrendView where
  | chart : List TrendRow → TrendView
  | notice : String → TrendView
deriving DecidableEq

/-- Trend section of the topic-filter page (app.py lines 176-185): chart when
`t_trend` is nonempty, otherwise the "Sem série temporal" notice. -/
def trendSection (trends : List TrendRow) (sel : Int) : TrendView :=
  let t := t_trend trends sel
  if t.isEmpty then TrendView.notice "Sem série temporal para este tema."
  else TrendView.chart t

/-- Example topics table containing the reserved outlier row `-1`. -/
def exTopicsWithOutlier : List TopicRow :=
  [⟨-1, "Outliers", ""⟩, ⟨0, "Machine Learning", "ml"⟩, ⟨1, "Bancos de Dados", "db"⟩]

/-- C1: the topic count displayed on the Overview page is the full row count of
the topics table, so on a topics table that contains the reserved `-1` row the
displayed count (3 here) differs from the count of rows with topic id ≠ -1
(2 here), contradicting the metric's own label "Temas (sem -1)". -/
theorem C1_temas_metric_counts_minus_one :
    temas_metric exTopicsWithOutlier = 3 ∧
    (exTopicsWithOutlier.filter fun t => t.topic ≠ -1).length = 2 := by
  decide

/-- On a list whose keys are pairwise distinct, filtering for one key value
returns the sole matching element, i.e. the content of `find?`. -/
theorem filter_key_eq_find_of_nodup {α β : Type} [DecidableEq β] (key : α → β)
    (l : List α) (k : β) (h : (l.map key).Nodup) :
    (l.filter fun x => key x = k) = (l.find? fun x => key x = k).toList := by
  induction l with
  | nil => rfl
  | cons a l ih =>
    rw [List.map_cons, List.nodup_cons] at h
    by_cases hk : key a = k
    · rw [List.filter_cons_of_pos (by simpa using hk),
        List.find?_cons_of_pos _ (by simpa using hk)]
      have hnone : (l.filter fun x => key x = k) = [] := by
        rw [List.filter_eq_nil_iff]
        intro x hx hpx
        have hxk : key x = key a := by
          have : key x = k := by simpa using hpx
          rw [this, hk]
        exact h.1 (hxk ▸ List.mem_map_of_mem key hx)
      simp [hnone]
    · rw [List.filter_cons_of_neg (by simpa using hk),
        List.find?_cons_of_neg _ (by simpa using hk)]
      exact ih h.2

/-- Append distributivity of `joinLeftTopics`. -/
theorem joinLeftTopics_append (xs ys : List (DocTopicRow × DocRow))
    (topics : List TopicRow) :
    joinLeftTopics (xs ++ ys) topics =
      joinLeftTopics xs topics ++ joinLeftTopics ys topics := by
  rw [joinLeftTopics, joinLeftTopics, joinLeftTopics, List.flatMap_append]

/-- Unfolding `joinInner` one left row at a time. -/
theorem joinInner_cons (dt : DocTopicRow) (rest : List DocTopicRow)
    (docs : List DocRow) :
    joinInner (dt :: rest) docs =
      ((docs.filter fun d => d.doc_id = dt.doc_id).map fun d => (dt, d)) ++
        joinInner rest docs := by
  rw [joinInner, List.flatMap_cons, joinInner]

/-- Left join of a single matched pair, under unique topic ids. -/
theorem joinLeftTopics_single (dt : DocTopicRow) (d : DocRow)
    (topics : List TopicRow) (ht : (topics.map TopicRow.topic).Nodup) :
    joinLeftTopics [(dt, d)] topics =
      [⟨dt.doc_id, dt.topic, dt.prob, d.ano, d.titulo, d.orientador_nome,
        d.orientador_id, d.url,
        (topics.find? fun t => t.topic = dt.topic).map (·.label)⟩] := by
  rw [joinLeftTopics, List.flatMap_cons]
  rw [filter_key_eq_find_of_nodup TopicRow.topic topics dt.topic ht]
  cases hft : topics.find? fun t => t.topic = dt.topic with
  | none => rfl
  | some t => rfl

/-- The join pipeline agrees with the spec-side description when document ids
and topic ids are unique. -/
theorem doc_with_topic_eq_spec (docs : List DocRow) (dts : List DocTopicRow)
    (topics : List TopicRow) (hd : (docs.map DocRow.doc_id).Nodup)
    (ht : (topics.map TopicRow.topic).Nodup) :
    doc_with_topic docs dts topics = documentWithTopicSpec docs dts topics := by
  induction dts with
  | nil => rfl
  | cons dt rest ih =>
    rw [doc_with_topic, joinInner_cons, joinLeftTopics_append, ← doc_with_topic, ih]
    rw [filter_key_eq_find_of_nodup DocRow.doc_id docs dt.doc_id hd]
    cases hfd : docs.find? fun d => d.doc_id = dt.doc_id with
    | none =>
      simp only [documentWithTopicSpec]
      rw [List.filterMap_cons_none (by rw [hfd]; rfl)]
      rfl
    | some d =>
      simp only [documentWithTopicSpec]
      rw [List.filterMap_cons_some (by rw [hfd]; rfl)]
      rw [Option.toList_some, List.map_cons, List.map_nil,
        joinLeftTopics_single dt d topics ht]
      rfl

/-- Row count of the spec-side join: one output row per DocumentTopic row whose
document id occurs in the docs table, provided topic ids are unique. -/
theorem documentWithTopicSpec_length (docs : List DocRow) (dts : List DocTopicRow)
    (topics : List TopicRow) :
    (documentWithTopicSpec docs dts topics).length =
      (dts.filter fun dt => docs.any fun d => d.doc_id = dt.doc_id).length := by
  induction dts with
  | nil => rfl
  | cons dt rest ih =>
    rw [documentWithTopicSpec, List.filterMap_cons, ← documentWithTopicSpec]
    cases hfd : docs.find? fun d => d.doc_id = dt.doc_id with
    | none =>
      have hany : (docs.any fun d => d.doc_id = dt.doc_id) = false := by
        rw [List.any_eq_false]
        intro d hdmem
        exact List.find?_eq_none.mp hfd d hdmem
      rw [Option.map_none', List.filter_cons_of_neg (by simp [hany])]
      exact ih
    | some d =>
      have hpd := List.find?_some hfd
      have hany : (docs.any fun d => d.doc_id = dt.doc_id) = true := by
        rw [List.any_eq_true]
        exact ⟨d, List.mem_of_find?_eq_some hfd, hpd⟩
      rw [Option.map_some', List.filter_cons_of_pos (by simp [hany]),
        List.length_cons, List.length_cons, ih]

/-- C4: `doc_with_topic` is the inner join of doc_topics with docs on document
id followed by a left join with topics on topic id keeping unmatched rows with
empty (`none`) label — it equals the spec-side `documentWithTopicSpec`, a pure
function of the three inputs — and its row count equals the number of
doc_topics rows whose document id occurs in the docs table, given unique
document ids (and unique topic ids, the spec's Topic invariant). -/
theorem C4_doc_with_topic_join (docs : List DocRow) (dts : List DocTopicRow)
    (topics : List TopicRow) (hd : (docs.map DocRow.doc_id).Nodup)
    (ht : (topics.map TopicRow.topic).Nodup) :
    doc_with_topic docs dts topics = documentWithTopicSpec docs dts topics ∧
    (doc_with_topic docs dts topics).length =
      (dts.filter fun dt => docs.any fun d => d.doc_id = dt.doc_id).length := by
  refine ⟨doc_with_topic_eq_spec docs dts topics hd ht, ?_⟩
  rw [doc_with_topic_eq_spec docs dts topics hd ht]
  exact documentWithTopicSpec_length docs dts topics

/-- Example docs table. -/
def exDocs : List DocRow :=
  [⟨"d1", 2020, "Titulo 1", "Ana Silva", "o1", "u1"⟩]

/-- Example doc_topics table: one row matching `exDocs`, one dangling. -/
def exDocTopics : List DocTopicRow :=
  [⟨"d1", 1, 9/10⟩, ⟨"dX", 1, 1/2⟩]

/-- Example topics table without an outlier row. -/
def exTopics : List TopicRow :=
  [⟨1, "Machine Learning", "ml"⟩]

/-- C4 witness: the join equality and the row count evaluated on concrete
tables (the dangling doc_topics row is dropped, so the count is 1). -/
theorem C4_doc_with_topic_join_witness :
    (exDocs.map DocRow.doc_id).Nodup ∧ (exTopics.map TopicRow.topic).Nodup ∧
    (doc_with_topic exDocs exDocTopics exTopics =
        documentWithTopicSpec exDocs exDocTopics exTopics ∧
      (doc_with_topic exDocs exDocTopics exTopics).length =
        (exDocTopics.filter fun dt =>
          exDocs.any fun d => d.doc_id = dt.doc_id).length) :=
  ⟨by decide, by decide,
    C4_doc_with_topic_join exDocs exDocTopics exTopics (by decide) (by decide)⟩

/-- C9: when the selected topic id has no matching row in the trends table,
the trend query `t_trend` is empty and the topic-filter page shows the
"Sem série temporal" notice instead of a chart. -/
theorem C9_no_trend_rows_notice (trends : List TrendRow) (sel : Int)
    (h : ∀ r ∈ trends, r.topic ≠ sel) :
    t_trend trends sel = [] ∧
    trendSection trends sel =
      TrendView.notice "Sem série temporal para este tema." := by
  have hfil : (trends.filter fun r => r.topic = sel) = [] := by
    rw [List.filter_eq_nil_iff]
    intro r hr hpr
    exact h r hr (by simpa using hpr)
  constructor
  · rw [t_trend, hfil]
    rfl
  · rw [trendSection]
    simp only [t_trend, hfil]
    rfl

/-- Example trends table used by several witnesses. -/
def exTrends : List TrendRow :=
  [⟨1, 2020, 1/5, 4⟩, ⟨1, 2021, 3/10, 6⟩]

/-- C9 witness: topic 7 has no rows in `exTrends`, so the query is empty and
the notice is shown. -/
theorem C9_no_trend_rows_notice_witness :
    (∀ r ∈ exTrends, r.topic ≠ 7) ∧
    (t_trend exTrends 7 = [] ∧
      trendSection exTrends 7 =
        TrendView.notice "Sem série temporal para este tema.") :=
  ⟨by decide, C9_no_trend_rows_notice exTrends 7 (by decide)⟩

/-- C10: the Overview outlier percentage is the unguarded division of the
count of doc_topics rows with topic `-1` by the docs row count, evaluated
before `human_pct` is entered: with at least one docs row it is exactly that
ratio, and with an empty docs table it raises (no value is produced), so a
non-empty docs table is a precondition for the Overview metrics to render. -/
theorem C10_outlier_ratio_unguarded (docs : List DocRow) (dts : List DocTopicRow)
    (h : docs ≠ []) :
    overview_outliers docs dts =
      some (out_count dts, (out_count dts : ℚ) / (docs.length : ℚ)) ∧
    ∀ dts2 : List DocTopicRow, overview_outliers [] dts2 = none := by
  constructor
  · rw [overview_outliers, if_neg]
    simpa using h
  · intro dts2
    rfl

/-- C10 witness: on the one-row docs table the ratio is produced; on the empty
docs table the division raises. -/
theorem C10_outlier_ratio_unguarded_witness :
    exDocs ≠ [] ∧
    (overview_outliers exDocs exDocTopics =
        some (out_count exDocTopics,
          (out_count exDocTopics : ℚ) / (exDocs.length : ℚ)) ∧
      ∀ dts2 : List DocTopicRow, overview_outliers [] dts2 = none) :=
  ⟨by decide, C10_outlier_ratio_unguarded exDocs exDocTopics (by decide)⟩

/-- Advisor-id resolution on the profile page (app.py line 198):
`advisor_profiles.filter(pl.col("orientador_nome")==choice).select("orientador_id").item()`.
`.item()` raises unless the filtered frame has exactly one row, so the lookup
yields a value only when exactly one profile row bears the chosen name. -/
def resolveAdvisorId (profiles : List AdvisorProfileRow) (choice : String) :
    Option String :=
  match profiles.filter fun p => p.orientador_nome = choice with
  | [p] => some p.orientador_id
  | _ => none

/-- Supervised theses of the resolved advisor (app.py lines 207-209):
`doc_with_topic.filter(pl.col("orientador_id")==oid)` sorted by year ascending
then probability descending (column projection omitted). -/
def advisorTccs (dwt : List DWTRow) (oid : String) : List DWTRow :=
  List.insertionSort (fun a b => a.ano < b.ano ∨ (a.ano = b.ano ∧ b.prob ≤ a.prob))
    (dwt.filter fun r => r.orientador_id = oid)

/-- One row of the advisor topic-distribution table after the label join. -/
structure ADRow where
  orientador_id : String
  topic : Int
  n_docs : Int
  share_no_orientador : ℚ
  label : Option String
deriving DecidableEq

/-- Left join of advisor-topic rows with the topics table (app.py line 214). -/
def joinLeftAdvisorTopics (rows : List AdvisorTopicRow) (topics : List TopicRow) :
    List ADRow :=
  rows.flatMap fun r =>
    match topics.filter fun t => t.topic = r.topic with
    | [] => [⟨r.orientador_id, r.topic, r.n_docs, r.share_no_orientador, none⟩]
    | ts => ts.map fun t =>
        ⟨r.orientador_id, r.topic, r.n_docs, r.share_no_orientador, some t.label⟩

/-- Topic distribution of the resolved advisor (app.py lines 213-215):
filter `advisor_topics` by the id, left-join labels, sort by doc count
descending. -/
def advisorDist (ats : List AdvisorTopicRow) (topics : List TopicRow)
    (oid : String) : List ADRow :=
  List.insertionSort (fun a b => b.n_docs ≤ a.n_docs)
    (joinLeftAdvisorTopics (ats.filter fun r => r.orientador_id = oid) topics)

/-- C2 (amended): when advisor names are unique, resolving the selected name
yields the id of its unique profile row, and that id is what filters the
DocumentWithTopic view and the advisor-topic table; when a second profile row
shares the selected name, the one-row extraction fails (raises), yielding no
id, rather than taking the first match. -/
theorem C2_advisor_lookup (profiles : List AdvisorProfileRow)
    (p : AdvisorProfileRow) (dwt : List DWTRow) (ats : List AdvisorTopicRow)
    (topics : List TopicRow) :
    ((profiles.map AdvisorProfileRow.orientador_nome).Nodup → p ∈ profiles →
      resolveAdvisorId profiles p.orientador_nome = some p.orientador_id ∧
      (∀ r, r ∈ advisorTccs dwt p.orientador_id ↔
        r ∈ dwt ∧ r.orientador_id = p.orientador_id) ∧
      (∀ r ∈ advisorDist ats topics p.orientador_id,
        r.orientador_id = p.orientador_id)) ∧
    (∀ q ∈ profiles, p ∈ profiles → q ≠ p →
      q.orientador_nome = p.orientador_nome →
      resolveAdvisorId profiles p.orientador_nome = none) := by
  constructor
  · intro hnames hp
    refine ⟨?_, ?_, ?_⟩
    · rw [resolveAdvisorId,
        filter_key_eq_find_of_nodup AdvisorProfileRow.orientador_nome profiles
          p.orientador_nome hnames]
      cases hf : profiles.find? fun x => x.orientador_nome = p.orientador_nome with
      | none =>
        exact absurd (List.find?_eq_none.mp hf p hp) (by simp)
      | some q =>
        have hq : q ∈ profiles := List.mem_of_find?_eq_some hf
        have hqn : q.orientador_nome = p.orientador_nome := by
          have := List.find?_some hf
          simpa using this
        have : q = p := List.inj_on_of_nodup_map hnames hq hp hqn
        rw [this]
        rfl
    · intro r
      rw [advisorTccs, (List.perm_insertionSort _ _).mem_iff, List.mem_filter]
      simp
    · intro r hr
      rw [advisorDist, (List.perm_insertionSort _ _).mem_iff] at hr
      rw [joinLeftAdvisorTopics, List.mem_flatMap] at hr
      obtain ⟨a, ha, hra⟩ := hr
      rw [List.mem_filter] at ha
      have haid : a.orientador_id = p.orientador_id := by simpa using ha.2
      cases hft : topics.filter fun t => t.topic = a.topic with
      | nil =>
        rw [hft] at hra
        have : r = ⟨a.orientador_id, a.topic, a.n_docs, a.share_no_orientador,
            none⟩ := by simpa using hra
        rw [this]
        exact haid
      | cons t ts =>
        rw [hft] at hra
        rw [List.mem_map] at hra
        obtain ⟨t2, _, ht2⟩ := hra
        rw [← ht2]
        exact haid
  · intro q hq hp hne hqn
    have hq1 : q ∈ profiles.filter fun x => x.orientador_nome = p.orientador_nome := by
      rw [List.mem_filter]
      exact ⟨hq, by simp [hqn]⟩
    have hp1 : p ∈ profiles.filter fun x => x.orientador_nome = p.orientador_nome := by
      rw [List.mem_filter]
      exact ⟨hp, by simp⟩
    rw [resolveAdvisorId]
    cases hl : profiles.filter fun x => x.orientador_nome = p.orientador_nome with
    | nil => rfl
    | cons x tl =>
      cases tl with
      | nil =>
        rw [hl] at hq1 hp1
        have e1 : q = x := by simpa using hq1
        have e2 : p = x := by simpa using hp1
        exact absurd (e1.trans e2.symm) hne
      | cons y tl2 => rfl

/-- Example advisor-profiles table with unique names. -/
def exProfiles : List AdvisorProfileRow :=
  [⟨"o1", "Ana Silva", 5, 2, "ml"⟩, ⟨"o2", "Bia Costa", 3, 1, "db"⟩]

/-- C2 witness: on the unique-names example table the selected name
"Ana Silva" resolves to advisor id "o1". -/
theorem C2_advisor_lookup_witness :
    resolveAdvisorId exProfiles "Ana Silva" = some "o1" := by
  have h := (C2_advisor_lookup exProfiles ⟨"o1", "Ana Silva", 5, 2, "ml"⟩
    [] [] []).1 (by decide) (by decide)
  exact h.1

/-- Example advisor-profiles table in which two rows share one name. -/
def exProfilesDup : List AdvisorProfileRow :=
  [⟨"o1", "Ana Silva", 5, 2, "ml"⟩, ⟨"o2", "Ana Silva", 3, 1, "db"⟩]

/-- C2 counterexample: with two profile rows named "Ana Silva" the lookup
produces no id at all (the one-row extraction raises), in particular not the
first matching row's id "o1" as the claim states. -/
theorem C2_advisor_lookup_counterexample :
    resolveAdvisorId exProfilesDup "Ana Silva" = none ∧
    resolveAdvisorId exProfilesDup "Ana Silva" ≠ some "o1" := by
  decide

/-- Anchored literal case-insensitive matching (spec-side reading). -/
def litHere : List Char → List Char → Bool
  | [], _ => true
  | _ :: _, [] => false
  | p :: ps, c :: cs => (p.toLower == c.toLower) && litHere ps cs

/-- Unanchored literal case-insensitive search. -/
def litFrom (pat : List Char) : List Char → Bool
  | [] => litHere pat []
  | c :: cs => litHere pat (c :: cs) || litFrom pat cs

/-- Restatement of the spec's words for the search claim: case-insensitive
substring containment of the query in the advisor name. -/
def substrCI (hay needle : String) : Bool :=
  litFrom needle.toList hay.toList

/-- Python's `q.strip()` (app.py line 151): removes leading and trailing
whitespace; the `if` tests truthiness, i.e. nonemptiness of the result. -/
def pyStrip (s : String) : String :=
  String.mk (((s.toList.dropWhile Char.isWhitespace).reverse.dropWhile
    Char.isWhitespace).reverse)

/-- Advisor search page (app.py lines 149-156). With an empty stripped query
the profiles table is shown unfiltered, sorted by thesis count descending
(column projection omitted). With a nonempty stripped query the source builds
the filter `pl.col("orientador_nome").str.contains(q, literal=False,
case=False)` (line 153); polars' `Expr.str.contains` accepts only the
keyword parameters `literal` and `strict`, so passing `case` raises
TypeError while the filter expression is being constructed — no result
table is produced (embedded as `none`). -/
def searchAdvisors (profiles : List AdvisorProfileRow) (q : String) :
    Option (List AdvisorProfileRow) :=
  if pyStrip q = "" then
    some (List.insertionSort (fun a b => b.n_tccs ≤ a.n_tccs) profiles)
  else none

/-- C3 (amended): with an empty or whitespace-only query the search returns
all advisor profile rows, sorted descending by thesis count; with a nonempty
query the filter call raises TypeError (polars' `str.contains` has no `case`
parameter), so the search produces an error rather than the rows whose name
contains the query as a case-insensitive substring. -/
theorem C3_search_advisors (ps : List AdvisorProfileRow) (q : String) :
    (pyStrip q = "" → ∃ res, searchAdvisors ps q = some res ∧
      (∀ r, r ∈ res ↔ r ∈ ps) ∧
      List.Sorted (fun a b => b.n_tccs ≤ a.n_tccs) res) ∧
    (pyStrip q ≠ "" → searchAdvisors ps q = none) := by
  constructor
  · intro hq
    refine ⟨List.insertionSort (fun a b => b.n_tccs ≤ a.n_tccs) ps, ?_, ?_, ?_⟩
    · rw [searchAdvisors, if_pos hq]
    · intro r
      exact (List.perm_insertionSort _ _).mem_iff
    · haveI : IsTotal AdvisorProfileRow (fun a b => b.n_tccs ≤ a.n_tccs) :=
        ⟨fun a b => le_total b.n_tccs a.n_tccs⟩
      haveI : IsTrans AdvisorProfileRow (fun a b => b.n_tccs ≤ a.n_tccs) :=
        ⟨fun _ _ _ h1 h2 => le_trans h2 h1⟩
      exact List.sorted_insertionSort _ _
  · intro hq
    rw [searchAdvisors, if_neg hq]

/-- C3 counterexample: for the nonempty query "ana", the name "Ana Silva" of
the first example profile does contain "ana" as a case-insensitive substring,
so the claim requires that row to be returned; but the search raises at the
`str.contains(..., case=False)` call and produces no result table at all. -/
theorem C3_search_advisors_counterexample :
    substrCI "Ana Silva" "ana" = true ∧
    searchAdvisors exProfiles "ana" = none := by
  decide

/-- C3 witness: the amended theorem applied at the example table, for a
whitespace-only query (a result table is produced) and for the query "ana"
(the error path). -/
theorem C3_search_advisors_witness :
    (pyStrip " " = "" ∧ searchAdvisors exProfiles " " ≠ none) ∧
    (pyStrip "ana" ≠ "" ∧ searchAdvisors exProfiles "ana" = none) :=
  ⟨⟨by decide, by
      obtain ⟨res, hres, hmem, hsort⟩ :=
        (C3_search_advisors exProfiles " ").1 (by decide)
      rw [hres]
      exact fun h => Option.noConfusion h⟩,
   ⟨by decide, (C3_search_advisors exProfiles "ana").2 (by decide)⟩⟩

/-- Group keys of a polars `group_by` in first-occurrence order. -/
def firstKeys (trends : List TrendRow) : List Int :=
  trends.foldl (fun acc r => if r.topic ∈ acc then acc else acc ++ [r.topic]) []

/-- One row of the Overview top-topics aggregate. -/
structure TopShareRow where
  topic : Int
  share_medio : ℚ
  n_total : Int
  label : Option String
deriving DecidableEq

/-- The Overview top-topics aggregate (app.py lines 122-127): group trends by
topic, mean of `share`, sum of `n_docs`, left-join the topic label, sort by
mean share descending and keep the first 10 rows. -/
def top_share (trends : List TrendRow) (topics : List TopicRow) :
    List TopShareRow :=
  (List.insertionSort (fun a b => b.share_medio ≤ a.share_medio)
    ((firstKeys trends).map fun t =>
      let g := trends.filter fun r => r.topic = t
      ⟨t, (g.map TrendRow.share).sum / (g.length : ℚ),
        (g.map TrendRow.n_docs).sum,
        (topics.find? fun tr => tr.topic = t).map TopicRow.label⟩)).take 10

/-- C6: the top-topics aggregate keeps at most 10 rows, is sorted descending
by mean share, and on the spec's example trends — topic 1 with shares 0.2 of
2020 over 4 docs and 0.3 of 2021 over 6 docs — produces mean share 0.25 and
total doc count 10, with the joined label. -/
theorem C6_top_share (trends : List TrendRow) (topics : List TopicRow) :
    (top_share trends topics).length ≤ 10 ∧
    List.Sorted (fun a b => b.share_medio ≤ a.share_medio)
      (top_share trends topics) ∧
    top_share exTrends exTopics = [⟨1, 1/4, 10, some "Machine Learning"⟩] := by
  refine ⟨?_, ?_, ?_⟩
  · rw [top_share]
    exact List.length_take_le 10 _
  · haveI : IsTotal TopShareRow (fun a b => b.share_medio ≤ a.share_medio) :=
      ⟨fun a b => le_total b.share_medio a.share_medio⟩
    haveI : IsTrans TopShareRow (fun a b => b.share_medio ≤ a.share_medio) :=
      ⟨fun _ _ _ h1 h2 => le_trans h2 h1⟩
    rw [top_share]
    exact List.Pairwise.sublist (List.take_sublist 10 _)
      (List.sorted_insertionSort _ _)
  · with_unfolding_all rfl

/-- Round to the nearest integer with ties to even, the rounding applied by
the fixed-point `:.1f` format of app.py line 54 (on the exact value). -/
def roundHalfEven (q : ℚ) : Int :=
  if q - ⌊q⌋ < 1/2 then ⌊q⌋
  else if 1/2 < q - ⌊q⌋ then ⌊q⌋ + 1
  else if ⌊q⌋ % 2 = 0 then ⌊q⌋ else ⌊q⌋ + 1

/-- The format `f"{y:.1f}"` of app.py line 54 on the exact rational value:
sign, integer part, one decimal digit. -/
def fmt1 (y : ℚ) : String :=
  (if y < 0 then "-" else "") ++
    toString ((roundHalfEven (10 * |y|)).toNat / 10) ++ "." ++
    toString ((roundHalfEven (10 * |y|)).toNat % 10)

/-- Formatter `human_pct` (app.py lines 52-56): `f"{100.0 * float(x):.1f}%"` under
try/except — a numeric input is formatted, an input on which `float(x)`
raises yields the dash placeholder. -/
def human_pct : Option ℚ → String
  | some x => fmt1 (100 * x) ++ "%"
  | none => "–"

/-- Half-even rounding differs from its argument by at most one half. -/
theorem roundHalfEven_sub_le (q : ℚ) :
    |(roundHalfEven q : ℚ) - q| ≤ 1/2 := by
  have h1 : (⌊q⌋ : ℚ) ≤ q := Int.floor_le q
  have h2 : q < ⌊q⌋ + 1 := Int.lt_floor_add_one q
  rw [roundHalfEven]
  split_ifs with ha hb hc
  · rw [abs_le]
    constructor <;> linarith
  · rw [abs_le]
    push_cast
    constructor <;> linarith
  · rw [abs_le]
    constructor <;> linarith
  · rw [abs_le]
    push_cast
    constructor <;> linarith

/-- Half-even rounding of a nonnegative rational is nonnegative. -/
theorem roundHalfEven_nonneg (q : ℚ) (h : 0 ≤ q) : 0 ≤ roundHalfEven q := by
  have h0 : 0 ≤ ⌊q⌋ := Int.floor_nonneg.mpr h
  rw [roundHalfEven]
  split_ifs <;> omega

/-- Single decimal digits render as one character. -/
theorem toString_digit_length (d : Nat) (hd : d < 10) :
    (toString d).length = 1 := by
  interval_cases d <;> rfl

/-- C7: `human_pct` renders a numeric input as `100*x` to one decimal place
followed by `%` — the shown value `m/10` is within half a unit in the last
place of `|100*x|`, the decimal part is exactly one digit, and `0.1234`
renders as "12.3%" — while a non-numeric (missing) input renders as the dash
placeholder without raising. -/
theorem C7_human_pct :
    human_pct none = "–" ∧
    human_pct (some (1234/10000)) = "12.3%" ∧
    ∀ q : ℚ, ∃ m : Nat,
      human_pct (some q) =
        (if 100 * q < 0 then "-" else "") ++
          toString (m / 10) ++ "." ++ toString (m % 10) ++ "%" ∧
      (toString (m % 10)).length = 1 ∧
      abs ((m : ℚ) / 10 - |100 * q|) ≤ 1/20 := by
  refine ⟨rfl, by with_unfolding_all rfl, ?_⟩
  intro q
  refine ⟨(roundHalfEven (10 * |100 * q|)).toNat, rfl, ?_, ?_⟩
  · exact toString_digit_length _ (Nat.mod_lt _ (by norm_num))
  · have hY : (0:ℚ) ≤ 10 * |100 * q| := by positivity
    have hm0 : 0 ≤ roundHalfEven (10 * |100 * q|) := roundHalfEven_nonneg _ hY
    have hcast : ((roundHalfEven (10 * |100 * q|)).toNat : ℚ) =
        ((roundHalfEven (10 * |100 * q|) : Int) : ℚ) := by
      exact_mod_cast Int.toNat_of_nonneg hm0
    have key := roundHalfEven_sub_le (10 * |100 * q|)
    rw [abs_le] at key ⊢
    rw [hcast]
    constructor <;> linarith [key.1, key.2]

/-- A manifest record: the parsed JSON object as key-value pairs; the empty
list is the empty record `{}`. -/
def Manifest : Type := List (String × String)

/-- Loader `load_manifest` (app.py lines 29-37), over an abstract file state: the
manifest file content when the file exists (`none` when absent) and the JSON
parse function (`none` on parse failure). A missing or unparseable file
yields the empty record instead of raising. -/
def load_manifest (contents : Option String)
    (parseJson : String → Option Manifest) : Manifest :=
  match contents with
  | none => []
  | some s =>
    match parseJson s with
    | none => []
    | some m => m

/-- Field access on a manifest (`manifest.get(key)`). -/
def manifest_get (m : Manifest) (key : String) : Option String :=
  (m.find? fun kv => kv.1 = key).map fun kv => kv.2

/-- C8: loading the manifest returns the empty record — on which every field
lookup is absent — whenever the file is missing or its content fails to
parse, rather than raising. -/
theorem C8_load_manifest_empty (contents : Option String)
    (parseJson : String → Option Manifest) :
    (contents = none → load_manifest contents parseJson = []) ∧
    (∀ s, contents = some s → parseJson s = none →
      load_manifest contents parseJson = []) ∧
    (∀ key, manifest_get (load_manifest none parseJson) key = none) := by
  refine ⟨?_, ?_, ?_⟩
  · intro h
    rw [h]
    rfl
  · intro s hs hp
    rw [hs, load_manifest, hp]
  · intro key
    rfl

/-- C8 witness: a present but malformed manifest file and an absent manifest
file both load as the empty record, and the `generated_at` field of the
empty record is absent. -/
theorem C8_load_manifest_empty_witness :
    load_manifest (some "not json") (fun _ => none) = [] ∧
    load_manifest none (fun _ => none) = [] ∧
    manifest_get (load_manifest none fun _ => none) "generated_at" = none :=
  ⟨(C8_load_manifest_empty (some "not json") fun _ => none).2.1 "not json" rfl rfl,
   (C8_load_manifest_empty none fun _ => none).1 rfl,
   (C8_load_manifest_empty none fun _ => none).2.2 "generated_at"⟩

/-- Decimal digit characters are digits. -/
theorem digitChar_isDigit (d : Nat) (hd : d < 10) :
    (Nat.digitChar d).isDigit = true := by
  interval_cases d <;> decide

/-- Numeric value of a decimal digit character. -/
theorem digitChar_val (d : Nat) (hd : d < 10) :
    (Nat.digitChar d).toNat - 48 = d := by
  interval_cases d <;> decide

/-- Python's `str(n)` for a natural number: decimal digits, most significant
first. -/
def natReprChars (n : Nat) : List Char :=
  if n = 0 then ['0'] else (Nat.digits 10 n).reverse.map Nat.digitChar

/-- Python's `str(i)` for an integer: optional minus sign then digits. -/
def intReprChars (i : Int) : List Char :=
  if i < 0 then '-' :: natReprChars i.natAbs else natReprChars i.toNat

/-- Formatter `fmt_topic_label` (app.py lines 47-50) and the inline f-strings of lines
164 and 234: `f"[{t}] {lab}"`. -/
def fmt_topic_label (t : Int) (lab : String) : String :=
  "[" ++ String.mk (intReprChars t) ++ "] " ++ lab

theorem natReprChars_ne_nil (n : Nat) : natReprChars n ≠ [] := by
  rw [natReprChars]
  split_ifs with h
  · simp
  · intro hc
    simp only [List.map_eq_nil_iff, List.reverse_eq_nil_iff] at hc
    exact Nat.digits_ne_nil_iff_ne_zero.mpr h hc

theorem natReprChars_digits (n : Nat) :
    ∀ c ∈ natReprChars n, c.isDigit = true := by
  intro c hc
  rw [natReprChars] at hc
  split_ifs at hc with h
  · have : c = '0' := by simpa using hc
    rw [this]
    decide
  · rw [List.mem_map] at hc
    obtain ⟨d, hd, rfl⟩ := hc
    rw [List.mem_reverse] at hd
    exact digitChar_isDigit d (Nat.digits_lt_base (by norm_num) hd)

/-- Folding the digit characters of a digit list (most significant first)
recovers the Horner value. -/
theorem foldl_digit_chars (l : List Nat) (hl : ∀ d ∈ l, d < 10) :
    ∀ a : Nat,
      (l.reverse.map Nat.digitChar).foldl (fun acc c => 10 * acc + (c.toNat - 48)) a
        = a * 10 ^ l.length + Nat.ofDigits 10 l := by
  induction l with
  | nil => intro a; simp
  | cons d l ih =>
    intro a
    have hd : d < 10 := hl d (List.mem_cons_self d l)
    rw [List.reverse_cons, List.map_append, List.foldl_append,
      ih (fun x hx => hl x (List.mem_cons_of_mem d hx)) a]
    show 10 * (a * 10 ^ l.length + Nat.ofDigits 10 l) + ((Nat.digitChar d).toNat - 48)
        = a * 10 ^ (d :: l).length + Nat.ofDigits 10 (d :: l)
    rw [digitChar_val d hd, Nat.ofDigits_cons, List.length_cons]
    ring

/-- The digit-string fragment of Python's `int()` reachable from a dashboard
label: one or more decimal digits (no sign). -/
def parseDigits (ds : List Char) : Option Nat :=
  if ds ≠ [] ∧ ds.all Char.isDigit then
    some (ds.foldl (fun a c => 10 * a + (c.toNat - 48)) 0)
  else none

/-- Python's `int()` on an optionally minus-signed digit string; `none` when
`int()` would raise ValueError. -/
def parseIntChars (ds : List Char) : Option Int :=
  if ds.head? = some '-' then (parseDigits (ds.drop 1)).map fun n => -Int.ofNat n
  else (parseDigits ds).map fun n => Int.ofNat n

/-- Decoding of the topic-filter selection (app.py line 166):
`int(choice.split("]")[0].strip("["))` — text before the FIRST `]`, stripped
of bracket characters, parsed as an integer. -/
def beforeFirstClose (cs : List Char) : List Char :=
  cs.takeWhile fun c => c != ']'

/-- Python's `s.strip("[")`: remove leading and trailing `[` characters. -/
def stripBrackets (cs : List Char) : List Char :=
  ((cs.dropWhile fun c => c == '[').reverse.dropWhile fun c => c == '[').reverse

/-- Decoding of `sel_topic` (app.py line 166). -/
def sel_topic_decode (choice : String) : Option Int :=
  parseIntChars (stripBrackets (beforeFirstClose choice.toList))

/-- Decoding of `sel_topics` on the evolution page (app.py line 240):
`int(p.split("]")[0][1:])`. -/
def sel_topics_decode (p : String) : Option Int :=
  parseIntChars ((beforeFirstClose p.toList).drop 1)

theorem parseDigits_natReprChars (n : Nat) :
    parseDigits (natReprChars n) = some n := by
  rw [parseDigits, if_pos]
  · congr 1
    rw [natReprChars]
    split_ifs with h
    · rw [h]
      rfl
    · rw [foldl_digit_chars (Nat.digits 10 n)
        (fun d hd => Nat.digits_lt_base (by norm_num) hd) 0, Nat.ofDigits_digits]
      simp
  · refine ⟨natReprChars_ne_nil n, ?_⟩
    rw [List.all_eq_true]
    exact natReprChars_digits n

theorem parseIntChars_intReprChars (t : Int) :
    parseIntChars (intReprChars t) = some t := by
  rw [intReprChars]
  split_ifs with ht
  · rw [parseIntChars,
      if_pos (show ('-' :: natReprChars t.natAbs).head? = some '-' from rfl)]
    simp only [List.drop_succ_cons, List.drop_zero]
    rw [parseDigits_natReprChars, Option.map_some']
    congr 1
    rw [Int.ofNat_eq_natCast]
    omega
  · have hne : ¬ ((natReprChars t.toNat).head? = some '-') := by
      intro heq
      cases hcs : natReprChars t.toNat with
      | nil => exact natReprChars_ne_nil t.toNat hcs
      | cons c cs =>
        rw [hcs] at heq
        have hc : c = '-' := by simpa using heq
        have hdig : c.isDigit = true :=
          natReprChars_digits t.toNat c (hcs ▸ List.mem_cons_self c cs)
        rw [hc] at hdig
        exact absurd hdig (by decide)
    rw [parseIntChars, if_neg hne, parseDigits_natReprChars, Option.map_some']
    congr 1
    rw [Int.ofNat_eq_natCast]
    omega

/-- The characters of an integer's decimal representation: a minus sign or
digits. -/
theorem intReprChars_chars (t : Int) :
    ∀ c ∈ intReprChars t, c = '-' ∨ c.isDigit = true := by
  intro c hc
  rw [intReprChars] at hc
  split_ifs at hc with ht
  · rw [List.mem_cons] at hc
    rcases hc with rfl | hc
    · exact Or.inl rfl
    · exact Or.inr (natReprChars_digits _ c hc)
  · exact Or.inr (natReprChars_digits _ c hc)

theorem takeWhile_append_all {p : Char → Bool} (xs : List Char) (y : Char)
    (ys : List Char) (hxs : ∀ c ∈ xs, p c = true) (hy : p y = false) :
    (xs ++ y :: ys).takeWhile p = xs := by
  induction xs with
  | nil =>
    rw [List.nil_append, List.takeWhile_cons_of_neg (by simp [hy])]
  | cons x xs ih =>
    rw [List.cons_append,
      List.takeWhile_cons_of_pos (hxs x (List.mem_cons_self x xs)),
      ih fun c hc => hxs c (List.mem_cons_of_mem x hc)]

theorem dropWhile_all_neg {p : Char → Bool} (l : List Char)
    (h : ∀ c ∈ l, p c = false) : l.dropWhile p = l := by
  cases l with
  | nil => rfl
  | cons a l =>
    rw [List.dropWhile_cons_of_neg (by simp [h a (List.mem_cons_self a l)])]

theorem stripBrackets_cons (cs : List Char)
    (h : ∀ c ∈ cs, (c == '[') = false) :
    stripBrackets ('[' :: cs) = cs := by
  rw [stripBrackets, List.dropWhile_cons_of_pos (by decide), dropWhile_all_neg cs h,
    dropWhile_all_neg cs.reverse fun c hc => h c (List.mem_reverse.mp hc),
    List.reverse_reverse]

theorem fmt_label_toList (t : Int) (lab : String) :
    (fmt_topic_label t lab).toList =
      '[' :: (intReprChars t ++ ']' :: ' ' :: lab.toList) := by
  show (fmt_topic_label t lab).data = _
  rw [fmt_topic_label, String.data_append, String.data_append,
    String.data_append]
  show ['['] ++ intReprChars t ++ [']', ' '] ++ lab.data = _
  simp

/-- C5: for every display label `[id] name` built by the formatting helper —
whatever brackets the name itself contains — both decoders read the id back
using the first `]` only; in particular "[12] Machine Learning" decodes to 12
and "[-1] Outliers" decodes to -1. -/
theorem C5_label_decoding :
    (∀ (t : Int) (lab : String),
      sel_topic_decode (fmt_topic_label t lab) = some t ∧
      sel_topics_decode (fmt_topic_label t lab) = some t) ∧
    sel_topic_decode "[12] Machine Learning" = some 12 ∧
    sel_topic_decode "[-1] Outliers" = some (-1) ∧
    sel_topics_decode "[12] Machine Learning" = some 12 ∧
    sel_topics_decode "[-1] Outliers" = some (-1) := by
  refine ⟨?_, by decide, by decide, by decide, by decide⟩
  intro t lab
  have hnotclose : ∀ c ∈ intReprChars t, (c != ']') = true := by
    intro c hc
    rcases intReprChars_chars t c hc with rfl | hd
    · decide
    · have hne : c ≠ ']' := by
        intro he
        rw [he] at hd
        exact absurd hd (by decide)
      simpa using hne
  have hnotopen : ∀ c ∈ intReprChars t, (c == '[') = false := by
    intro c hc
    rcases intReprChars_chars t c hc with rfl | hd
    · decide
    · have hne : c ≠ '[' := by
        intro he
        rw [he] at hd
        exact absurd hd (by decide)
      simpa using hne
  have hbefore : beforeFirstClose (fmt_topic_label t lab).toList =
      '[' :: intReprChars t := by
    rw [fmt_label_toList, beforeFirstClose,
      List.takeWhile_cons_of_pos (by decide),
      takeWhile_append_all (intReprChars t) ']' (' ' :: lab.toList)
        hnotclose (by decide)]
  constructor
  · rw [sel_topic_decode, hbefore, stripBrackets_cons _ hnotopen,
      parseIntChars_intReprChars]
  · rw [sel_topics_decode, hbefore, List.drop_one, List.tail_cons,
      parseIntChars_intReprChars]
